import Mathlib

/-!
Verification of the snowfall accumulation subsystem of the portfolio site
(`src/components/Snowfall/Snowfall.js`).

The grid is a flat buffer of cells valued 0 (empty), 1 (snow), 2 (blocker),
with a double-buffered physics step, a per-column cached snow count stored in
a `Uint16Array`, and a post-pass gravity cascade.  The embedding below mirrors
the JavaScript class `SnowPile` operation by operation:

* buffers are `List Nat`; `List.set` ignores out-of-range indices exactly as
  writes to out-of-range indices of a JS typed array are ignored, and reads
  out of range default to 0 where the source has already validated bounds;
* the `Uint16Array` column counts wrap at 2^16, modelled by `u16inc`/`u16dec`;
* the calls to `Math.random()` (spread decision, direction choice, decay
  decision) are abstracted by an `Oracle` giving the Boolean outcome of each
  comparison per grid position, so theorems quantifying over the oracle hold
  for every outcome of the random draws, and concrete oracles replay one
  particular outcome;
* JS loops become folds over `List.range` (ascending loops), a fold over the
  reversed range (the descending row loop of `update`), or structural
  countdown recursion (the upward search of `add` and the cascade scan, which
  exit early).
-/

namespace Snowfall

/-- Increment of a `Uint16Array` entry (`counts[col]++` stores mod 2^16). -/
def u16inc (c : Nat) : Nat := (c + 1) % 65536

/-- Decrement of a `Uint16Array` entry (`counts[col]--` wraps at 0). -/
def u16dec (c : Nat) : Nat := (c + 65535) % 65536

/-- A surface rectangle captured from the DOM (`surfacePositions` entries),
in canvas pixel coordinates. -/
structure Surface where
  left : Rat
  right : Rat
  top : Rat
  bottom : Rat

/-- The configuration fields of `CONFIG` that the grid logic reads.  The
probability fields (`chanceToSpread`, `chanceToDecay`) only feed the random
comparisons and are absorbed into the oracle. -/
structure Config where
  collectAtBottom : Bool

/-- The source file's `CONFIG` (it sets `collectAtBottom: false`). -/
def CONFIG : Config := { collectAtBottom := false }

/-- Outcomes of the three `Math.random()` comparisons of `SnowPile.update`,
indexed by the (row, col) of the snow cell being processed:
`spread row col` is the outcome of `Math.random() < chanceToSpread * count`,
`dirLeft row col` the outcome of `Math.random() < 0.5` (true picks dir -1),
`decay row col` the outcome of `Math.random() < chanceToDecay`. -/
structure Oracle where
  spread : Nat → Nat → Bool
  dirLeft : Nat → Nat → Bool
  decay : Nat → Nat → Bool

/-- The state of the `SnowPile` class: grid sizes, the double buffer, and the
cached per-column snow counts. -/
structure SnowPile where
  cellWidth : Rat
  colCount : Nat
  rowCount : Nat
  currentBuffer : List Nat
  nextBuffer : List Nat
  columnCounts : List Nat
deriving DecidableEq

/-- `getIndex(col, row) = row * colCount + col`. -/
def getIndex (p : SnowPile) (col row : Nat) : Nat := row * p.colCount + col

/-- `getValue(col, row)`: bounds-checked read from the active buffer.
Out-of-range coordinates (including negative ones, hence `Int` arguments)
return the JS sentinel `undefined`, modelled as `none`; an in-range read of a
typed array always yields a value, but the model keeps `List.get?` so that a
read past the list also maps to `none`. -/
def getValue (p : SnowPile) (col row : Int) : Option Nat :=
  if col < 0 ∨ (p.colCount : Int) ≤ col ∨ row < 0 ∨ (p.rowCount : Int) ≤ row then none
  else p.currentBuffer.get? (row * (p.colCount : Int) + col).toNat

/-- The inner loop of `resize`: whether the cell centre (x, y) lies inside
any captured surface rectangle (boundary included, as in the source's
`>=`/`<=` tests). -/
def inAnySurface (surfaces : List Surface) (x y : Rat) : Bool :=
  surfaces.any (fun s => decide (x ≥ s.left ∧ x ≤ s.right ∧ y ≥ s.top ∧ y ≤ s.bottom))

/-- The blocker-marking double loop of `resize`: for every column and row,
mark the cell as 2 when its centre lies in some surface rectangle. -/
def markBlockers (cellWidth : Rat) (cc rc : Nat) (surfaces : List Surface)
    (b : List Nat) : List Nat :=
  (List.range cc).foldl (fun b (col : Nat) =>
    (List.range rc).foldl (fun b (row : Nat) =>
      if inAnySurface surfaces ((col : Rat) * cellWidth + cellWidth / 2)
          ((row : Rat) * cellWidth + cellWidth / 2)
      then b.set (row * cc + col) 2 else b) b) b

/-- `resize(width, height)`: compute the grid dimensions, allocate zeroed
buffers and counts, and mark blocker cells from the surface rectangles. -/
def resize (cellWidth width height : Rat) (surfaces : List Surface) : SnowPile :=
  let cc := (Int.ceil (width / cellWidth)).toNat
  let rc := (Int.ceil (height / cellWidth)).toNat
  let totalCells := cc * rc
  { cellWidth := cellWidth
    colCount := cc
    rowCount := rc
    currentBuffer := markBlockers cellWidth cc rc surfaces (List.replicate totalCells 0)
    nextBuffer := List.replicate totalCells 0
    columnCounts := List.replicate cc 0 }

/-- The upward search of `add`: from `row` down to 0, find the first empty
cell, write snow there and bump the cached count, else return unchanged. -/
def addLoop (cc col : Nat) (b counts : List Nat) : Nat → List Nat × List Nat
  | 0 =>
    if b.getD (0 * cc + col) 0 = 0 then
      (b.set (0 * cc + col) 1, counts.set col (u16inc (counts.getD col 0)))
    else (b, counts)
  | r + 1 =>
    if b.getD ((r + 1) * cc + col) 0 = 0 then
      (b.set ((r + 1) * cc + col) 1, counts.set col (u16inc (counts.getD col 0)))
    else addLoop cc col b counts r

/-- `add(col, baseRow)`: refuse the very bottom row when not collecting at
the bottom, then search upward from `min(baseRow, rowCount - 1)` for an empty
cell.  When `rowCount = 0` the JS loop starts at row -1 and never runs. -/
def add (cfg : Config) (p : SnowPile) (col baseRow : Nat) : SnowPile :=
  match p.rowCount with
  | 0 => p
  | rm + 1 =>
    if cfg.collectAtBottom = false ∧ baseRow = rm then p
    else
      let bc := addLoop p.colCount col p.currentBuffer p.columnCounts (min baseRow rm)
      { p with currentBuffer := bc.1, columnCounts := bc.2 }

/-- `isRowFull(rowIndex)` on a given buffer: every cell of the row is snow
(the early-exit JS loop is equivalent to `List.all`). -/
def isRowFull (cc : Nat) (b : List Nat) (rowIndex : Nat) : Bool :=
  (List.range cc).all (fun i => b.getD (rowIndex * cc + i) 0 == 1)

/-- The body of the `clearRow` loop for one column. -/
def clearRowStep (cc rowIndex : Nat) (bc : List Nat × List Nat) (col : Nat) :
    List Nat × List Nat :=
  if bc.1.getD (rowIndex * cc + col) 0 = 1 then
    (bc.1.set (rowIndex * cc + col) 0,
     bc.2.set col (u16dec (bc.2.getD col 0)))
  else bc

/-- `clearRow(rowIndex)`: clear every snow cell of the row, decrementing the
count of its column. -/
def clearRow (p : SnowPile) (rowIndex : Nat) : SnowPile :=
  let bc := (List.range p.colCount).foldl (clearRowStep p.colCount rowIndex)
    (p.currentBuffer, p.columnCounts)
  { p with currentBuffer := bc.1, columnCounts := bc.2 }

/-- The body of the inner row loop of `clearAllSnow`. -/
def clearCellStep (cc col : Nat) (b : List Nat) (row : Nat) : List Nat :=
  if b.getD (row * cc + col) 0 = 1 then b.set (row * cc + col) 0 else b

/-- The inner row loop of `clearAllSnow` for one column. -/
def clearColumnSnow (cc rc col : Nat) (b : List Nat) : List Nat :=
  (List.range rc).foldl (clearCellStep cc col) b

/-- The body of the outer column loop of `clearAllSnow`: clear the column's
snow, then zero its cached count. -/
def clearAllStep (cc rc : Nat) (bc : List Nat × List Nat) (col : Nat) :
    List Nat × List Nat :=
  (clearColumnSnow cc rc col bc.1, bc.2.set col 0)

/-- `clearAllSnow()`: per column, clear every snow cell then zero the cached
count; blockers are untouched. -/
def clearAllSnow (p : SnowPile) : SnowPile :=
  let bc := (List.range p.colCount).foldl (clearAllStep p.colCount p.rowCount)
    (p.currentBuffer, p.columnCounts)
  { p with currentBuffer := bc.1, columnCounts := bc.2 }

/-- The scan of `cascadeColumn`: the counter `n` is the number of rows still
to scan, so the iteration with counter `n + 1` reads row `n`; a snow cell is
moved down to `writeRow`, a blocker stops the scan, an empty cell is
skipped.  Matches `for (readRow = gapRow - 1; readRow >= 0; readRow--)`. -/
def cascadeAux (cc col : Nat) (b : List Nat) (writeRow : Nat) : Nat → List Nat
  | 0 => b
  | n + 1 =>
    let readIdx := n * cc + col
    let cellValue := b.getD readIdx 0
    if cellValue = 1 then
      cascadeAux cc col ((b.set (writeRow * cc + col) 1).set readIdx 0) (writeRow - 1) n
    else if cellValue = 2 then b
    else cascadeAux cc col b writeRow n

/-- `cascadeColumn(buffer, col, gapRow)`: fill the gap created at `gapRow`
by pulling the snow above it downwards, stopping at a blocker. -/
def cascadeColumn (cc : Nat) (b : List Nat) (col gapRow : Nat) : List Nat :=
  cascadeAux cc col b gapRow gapRow

/-- Accumulator of the physics pass of `update`: the write buffer, the live
column counts, the recorded cascade gaps, and a ghost log.  The `log` field
records one `(sourceIdx, destIdx)` pair for each write of moved or decayed
snow data into the write buffer (fall, lateral spread, decay); it is pure
instrumentation: no definition reads it back, so erasing it gives exactly
the source computation. -/
structure PassAcc where
  next : List Nat
  counts : List Nat
  cascades : List (Nat × Nat)
  log : List (Nat × Nat)
deriving DecidableEq

/-- The body of the inner column loop of `update` for the cell (col, row):
reads only the frozen `current` buffer and the live counts, writes the
accumulator.  Mirrors the source case split: fall when the cell below is
empty, rest on a blocker, else possibly spread laterally or decay. -/
def processCell (o : Oracle) (cc rc : Nat) (current : List Nat) (row : Nat)
    (acc : PassAcc) (col : Nat) : PassAcc :=
  let idx := row * cc + col
  let cell := current.getD idx 0
  if cell ≠ 1 then acc
  else
    let idxBelow := (row + 1) * cc + col
    let cellBelow := current.getD idxBelow 0
    if cellBelow = 0 then
      { acc with next := (acc.next.set idxBelow 1).set idx 0,
                 log := acc.log ++ [(idx, idxBelow)] }
    else if cellBelow = 2 then acc
    else
      let columnSnowCount := acc.counts.getD col 0
      if o.spread row col = true ∧ columnSnowCount < rc - 3 then
        let canMoveLeft := decide (col ≠ 0) && (current.getD (idx - 1) 0 == 0)
        let canMoveRight := decide (col + 1 < cc) && (current.getD (idx + 1) 0 == 0)
        let dir : Option Bool :=
          if canMoveLeft && canMoveRight then some (o.dirLeft row col)
          else if canMoveLeft then some true
          else if canMoveRight then some false
          else none
        match dir with
        | none => acc
        | some isLeft =>
          let tgtCol := if isLeft then col - 1 else col + 1
          let tgtIdx := row * cc + tgtCol
          let counts1 := acc.counts.set col (u16dec columnSnowCount)
          { next := (acc.next.set tgtIdx 1).set idx 0,
            counts := counts1.set tgtCol (u16inc (counts1.getD tgtCol 0)),
            cascades := acc.cascades ++ [(col, row)],
            log := acc.log ++ [(idx, tgtIdx)] }
      else if o.decay row col = true then
        { next := acc.next.set idx 0,
          counts := acc.counts.set col (u16dec columnSnowCount),
          cascades := acc.cascades ++ [(col, row)],
          log := acc.log ++ [(idx, idx)] }
      else acc

/-- One iteration of the outer row loop of `update`: completely full rows
are skipped, otherwise every column is processed left to right. -/
def processRow (o : Oracle) (cc rc : Nat) (current : List Nat)
    (acc : PassAcc) (row : Nat) : PassAcc :=
  if isRowFull cc current row then acc
  else (List.range cc).foldl (processCell o cc rc current row) acc

/-- Step 2 of `update`: the double-buffered physics pass over the rows
`rowCount - 2, …, 0` (for `rowCount ≤ 1` the JS loop starts below zero and
does not run, and `List.range (rc - 1)` is empty), starting from a write
buffer that is a copy of `current` (`next.set(current)`). -/
def mainPass (o : Oracle) (cc rc : Nat) (current counts : List Nat) : PassAcc :=
  ((List.range (rc - 1)).reverse).foldl (processRow o cc rc current)
    { next := current, counts := counts, cascades := [], log := [] }

/-- Step 3 of `update`: run the gravity cascade for every recorded gap, in
recording order. -/
def applyCascades (cc : Nat) (b : List Nat) (records : List (Nat × Nat)) : List Nat :=
  records.foldl (fun buf pr => cascadeColumn cc buf pr.1 pr.2) b

/-- The body of the bottom-row drain loop of `update` for one column. -/
def clearBottomStep (bottomRowStart : Nat) (bc : List Nat × List Nat) (col : Nat) :
    List Nat × List Nat :=
  if bc.1.getD (bottomRowStart + col) 0 = 1 then
    (bc.1.set (bottomRowStart + col) 0,
     bc.2.set col (u16dec (bc.2.getD col 0)))
  else bc

/-- The bottom-row drain of `update`: clear every snow cell of the last row
of the write buffer, decrementing its column's count. -/
def clearBottom (cc bottomRowStart : Nat) (bc : List Nat × List Nat) :
    List Nat × List Nat :=
  (List.range cc).foldl (clearBottomStep bottomRowStart) bc

/-- `update()`: physics pass, cascades, optional bottom drain, then the
buffer swap.  When `rowCount = 0` the JS bottom-row indices are negative and
the drain loop touches nothing. -/
def update (cfg : Config) (o : Oracle) (p : SnowPile) : SnowPile :=
  let cc := p.colCount
  let rc := p.rowCount
  let current := p.currentBuffer
  let acc := mainPass o cc rc current p.columnCounts
  let next1 := applyCascades cc acc.next acc.cascades
  let bc :=
    if cfg.collectAtBottom then (next1, acc.counts)
    else
      match rc with
      | 0 => (next1, acc.counts)
      | r + 1 => clearBottom cc (r * cc) (next1, acc.counts)
  { p with currentBuffer := bc.1, nextBuffer := current, columnCounts := bc.2 }

/-- `nodeCollideWithElement(x, y)`: strict point-in-rectangle test against
every captured surface. -/
def nodeCollideWithElement (surfacePositions : List Surface) (x y : Rat) : Bool :=
  surfacePositions.any (fun pos =>
    decide (x < pos.right ∧ x > pos.left ∧ y < pos.bottom ∧ y > pos.top))

/-- The exact number of snow cells in column `col` of a buffer — the
measurement that the cached `columnCounts[col]` is supposed to track. -/
def colSnowCount (cc rc : Nat) (b : List Nat) (col : Nat) : Nat :=
  ((List.range rc).filter (fun row => b.getD (row * cc + col) 0 == 1)).length

/-- The public mutating calls on a grid, for reasoning about arbitrary call
sequences; a `step` carries the outcomes of its random draws. -/
inductive Op where
  | add (col baseRow : Nat)
  | step (o : Oracle)
  | clearRow (rowIndex : Nat)
  | clearAll

/-- Interpretation of one call. -/
def applyOp (cfg : Config) (p : SnowPile) : Op → SnowPile
  | .add col baseRow => add cfg p col baseRow
  | .step o => update cfg o p
  | .clearRow rowIndex => clearRow p rowIndex
  | .clearAll => clearAllSnow p

/-- Interpretation of a call sequence, first call first. -/
def applyOps (cfg : Config) (p : SnowPile) (ops : List Op) : SnowPile :=
  ops.foldl (applyOp cfg) p

/-- A 3-column, 8-row grid with no surfaces: the state `resize` builds for a
3×8-pixel canvas at `cellSize = 1` with no `.surface` elements (all cells
empty, all counts zero). -/
def g0 : SnowPile :=
  { cellWidth := 1
    colCount := 3
    rowCount := 8
    currentBuffer := List.replicate 24 0
    nextBuffer := List.replicate 24 0
    columnCounts := List.replicate 3 0 }

/-- An oracle replaying one realisable outcome of the random draws: the
spread comparison succeeds for the cells (0, 4) and (2, 4) — each has
probability `chanceToSpread * 2 > 0` there — and no decay occurs. -/
def spreadOracle : Oracle :=
  { spread := fun row col => row == 4 && (col == 0 || col == 2)
    dirLeft := fun _ _ => false
    decay := fun _ _ => false }

/-- An oracle under which no random comparison ever succeeds. -/
def noRandom : Oracle :=
  { spread := fun _ _ => false
    dirLeft := fun _ _ => false
    decay := fun _ _ => false }

/-- Four `add` calls building two floating two-cell stacks in columns 0 and
2 (rows 4 and 5), then one `step`. -/
def bugOps : List Op :=
  [.add 0 5, .add 0 4, .add 2 5, .add 2 4, .step spreadOracle]

/-- The grid after replaying `bugOps` from the freshly constructed `g0`. -/
def bugState : SnowPile := applyOps CONFIG g0 bugOps

/-- The grid just before the `step` of `bugOps`. -/
def preStepState : SnowPile :=
  applyOps CONFIG g0 [.add 0 5, .add 0 4, .add 2 5, .add 2 4]

/-- A 10×10 all-empty grid (what `resize` builds for a 10×10-pixel canvas at
`cellSize = 1` with no surfaces). -/
def grid10 : SnowPile :=
  { cellWidth := 1
    colCount := 10
    rowCount := 10
    currentBuffer := List.replicate 100 0
    nextBuffer := List.replicate 100 0
    columnCounts := List.replicate 10 0 }

/-- A 2×3 grid whose bottom row was marked as blockers at construction (as
`resize` does for a surface band covering the bottom row of cells). -/
def blockerGrid : SnowPile :=
  { cellWidth := 1
    colCount := 2
    rowCount := 3
    currentBuffer := [0, 0, 0, 0, 2, 2]
    nextBuffer := List.replicate 6 0
    columnCounts := [0, 0] }

/-- A small 2×2 grid holding some snow, for witnesses. -/
def smallGrid : SnowPile :=
  { cellWidth := 1
    colCount := 2
    rowCount := 2
    currentBuffer := [0, 1, 1, 0]
    nextBuffer := List.replicate 4 0
    columnCounts := [1, 1] }

/-- The 10-row single column of the cascade scenario: snow at rows 2, 3, 5
(row 0 at the top). -/
def c4Column : List Nat := [0, 0, 1, 1, 0, 1, 0, 0, 0, 0]

/-- The ghost write log of the physics pass run by the `step` of `bugOps`. -/
def bugLog : List (Nat × Nat) :=
  (mainPass spreadOracle preStepState.colCount preStepState.rowCount
    preStepState.currentBuffer preStepState.columnCounts).log

/-!
Helper lemmas about `List.getD` and `List.set` (reads and writes of the
typed-array buffers), and a generic fold-invariant principle for the loops.
-/

/-- Writing at one index leaves reads at any other index unchanged. -/
theorem getD_set_ne (l : List Nat) (i j v : Nat) (h : i ≠ j) :
    (l.set i v).getD j 0 = l.getD j 0 := by
  induction l generalizing i j with
  | nil => simp
  | cons a t ih =>
    cases i with
    | zero => cases j with
      | zero => exact absurd rfl h
      | succ j => simp [List.set, List.getD]
    | succ i => cases j with
      | zero => simp [List.set, List.getD]
      | succ j =>
        simp only [List.set, List.getD_cons_succ]
        exact ih i j (fun hij => h (by rw [hij]))

/-- Reading back a written index: the written value in range, the default
out of range (a JS typed array ignores out-of-range writes). -/
theorem getD_set_self (l : List Nat) (i v : Nat) :
    (l.set i v).getD i 0 = if i < l.length then v else 0 := by
  induction l generalizing i with
  | nil => simp
  | cons a t ih =>
    cases i with
    | zero => simp
    | succ i => simpa using ih i

/-- A read after a write is either the written value or the original read. -/
theorem getD_set_cases (l : List Nat) (i j v : Nat) :
    (l.set i v).getD j 0 = l.getD j 0 ∨ (l.set i v).getD j 0 = v := by
  rcases eq_or_ne i j with rfl | h
  · rw [getD_set_self]
    split
    · exact Or.inr rfl
    · exact Or.inl (by rw [List.getD_eq_default]; omega)
  · exact Or.inl (getD_set_ne l i j v h)

/-- Writing the value a position already reads as leaves the list unchanged
(used for index 0 writes over an already-zero entry). -/
theorem set_zero_of_getD_zero (l : List Nat) (i : Nat) (h : l.getD i 0 = 0) :
    l.set i 0 = l := by
  induction l generalizing i with
  | nil => simp
  | cons a t ih =>
    cases i with
    | zero => simp_all
    | succ i => simpa using ih i (by simpa using h)

/-- Fold-invariant principle: a property preserved by every iteration of a
loop body holds after the loop. -/
theorem foldl_inv {α β : Type _} (P : α → Prop) (l : List β) (f : α → β → α)
    (a : α) (step : ∀ a b, b ∈ l → P a → P (f a b)) (h0 : P a) :
    P (l.foldl f a) := by
  induction l generalizing a with
  | nil => exact h0
  | cons x t ih =>
    exact ih (f a x) (fun a b hb ha => step a b (List.mem_cons_of_mem x hb) ha)
      (step a x (List.mem_cons_self x t) h0)

/-!
The literal grids used below are exactly what `resize` constructs (proved
here once; `decide` cannot evaluate the rational geometry of `resize`, so
these equalities go through `norm_num`).
-/

/-- `g0` is the grid `resize` builds for a 3×8 canvas with no surfaces. -/
theorem resize_g0 : resize 1 3 8 [] = g0 := by
  unfold resize markBlockers g0 inAnySurface
  norm_num
  decide

/-- `grid10` is the grid `resize` builds for a 10×10 canvas with no
surfaces. -/
theorem resize_grid10 : resize 1 10 10 [] = grid10 := by
  unfold resize markBlockers grid10 inAnySurface
  norm_num
  decide

/-- `blockerGrid` is the grid `resize` builds for a 2×3 canvas with one
surface band over the bottom row of cells. -/
theorem resize_blockerGrid :
    resize 1 2 3 [{ left := 0, right := 2, top := 2, bottom := 3 }] = blockerGrid := by
  unfold resize markBlockers blockerGrid inAnySurface
  norm_num
  refine ⟨rfl, rfl, ?_, rfl, rfl⟩
  norm_num [show Int.toNat 2 = 2 from rfl, show Int.toNat 3 = 3 from rfl,
    show List.range 2 = [0, 1] from rfl, show List.range 3 = [0, 1, 2] from rfl,
    List.foldl_cons, List.foldl_nil]
  decide

/-!
Claims C1, C2, C4, C5: concrete computations.
-/

/-- Claim C1: for every reachable grid state and every column c, the cached
`columnCounts[c]` equals the exact number of snow cells in column c of the
active buffer, after any sequence of `add`, `step`, `clearRow`,
`clearAllSnow` calls, for any outcomes of the random choices.  The code
violates this: after the reachable sequence `bugOps` (four `add`s building
floating stacks in columns 0 and 2, then one `step` whose spread draws
succeed at cells (0, 4) and (2, 4), outcomes of positive probability), the
cached count of column 1 is 2 while column 1 of the active buffer holds
exactly one snow cell: both lateral spreads wrote the same destination cell
(1, 4) of the write buffer, merging two snow cells into one while both
destination count increments were applied. -/
theorem c1_columnCounts_desync :
    bugState.columnCounts.getD 1 0 = 2 ∧
    colSnowCount bugState.colCount bugState.rowCount bugState.currentBuffer 1 = 1 := by
  decide

/-- Claim C2: within a single `step()`, no write-buffer destination index is
written using data from two different source cells.  Refuted: the ghost
write log of the pass run from `preStepState` contains the entries (12, 13)
and (14, 13) — the cells at flat indices 12 = (0, 4) and 14 = (2, 4) both
spread into destination index 13 = (1, 4) in the same pass. -/
theorem c2_double_write :
    ¬ (∀ e1 ∈ bugLog, ∀ e2 ∈ bugLog, e1.2 = e2.2 → e1.1 = e2.1) := by
  decide

/-- Claim C4 as stated: in the 10-row column with snow at rows 2, 3, 5,
after the decay removes row 3 and the cascade for that gap runs, the column
would contain snow exactly at rows 2 and 4.  False: the resulting column has
no snow at row 2 nor at row 4 (the cell from row 2 is pulled down into the
gap at row 3, and row 4 stays empty). -/
theorem c4_claimed_rows_false :
    ¬ (∀ r < 10, ((cascadeColumn 1 (c4Column.set 3 0) 0 3).getD r 0 = 1 ↔
        (r = 2 ∨ r = 4))) := by
  decide

/-- Claim C4 amended: after the decay removes the snow at row 3 (the write
`next[idx] = 0`) and the cascade for gap (col 0, row 3) runs, the column
contains snow exactly at rows 3 and 5 — the cell above the gap is pulled
down one row into it, and the pre-existing hole at row 4 (which the cascade
was not recorded for) remains. -/
theorem c4_cascade_result :
    cascadeColumn 1 (c4Column.set 3 0) 0 3 = [0, 0, 0, 1, 0, 1, 0, 0, 0, 0] ∧
    (∀ r < 10, ((cascadeColumn 1 (c4Column.set 3 0) 0 3).getD r 0 = 1 ↔
        (r = 3 ∨ r = 5))) := by
  decide

/-- Claim C5: on a 10×10 all-empty grid with `collectAtBottom = false`,
`add(5, 9)` is a no-op (the bottom row is excluded), and `add(5, 8)` places
exactly one snow cell at (5, 8) — flat index 85 — and makes
`columnCounts[5]` equal to 1. -/
theorem c5_add_scenario :
    add CONFIG grid10 5 9 = grid10 ∧
    (add CONFIG grid10 5 8).currentBuffer = grid10.currentBuffer.set (8 * 10 + 5) 1 ∧
    (add CONFIG grid10 5 8).columnCounts = (List.replicate 10 0).set 5 1 := by
  decide

/-!
Claim C9: the point-vs-surface collision test.
-/

/-- Claim C9: `nodeCollideWithElement(x, y)` returns true iff the point lies
in the strict interior of at least one surface rectangle; a point on a
rectangle's boundary is not a hit for that rectangle. -/
theorem c9_collision_strict_interior (ss : List Surface) (x y : Rat) :
    nodeCollideWithElement ss x y = true ↔
      ∃ pos ∈ ss, pos.left < x ∧ x < pos.right ∧ pos.top < y ∧ y < pos.bottom := by
  simp only [nodeCollideWithElement, List.any_eq_true, decide_eq_true_eq]
  constructor
  · rintro ⟨p, hp, h1, h2, h3, h4⟩
    exact ⟨p, hp, h2, h1, h4, h3⟩
  · rintro ⟨p, hp, h1, h2, h3, h4⟩
    exact ⟨p, hp, h2, h1, h4, h3⟩

/-!
Claim C8: the bounds-checked accessor, and claim C10: `add` beyond the
bottom row.
-/

/-- An in-range optional read yields exactly the defaulted read. -/
theorem get?_eq_some_getD (l : List Nat) (i : Nat) (h : i < l.length) :
    l.get? i = some (l.getD i 0) := by
  induction l generalizing i with
  | nil => simp at h
  | cons a t ih =>
    cases i with
    | zero => simp
    | succ i => simpa using ih i (by simpa using h)

/-- Claim C8: for every (col, row) outside `0 ≤ col < colCount` and
`0 ≤ row < rowCount`, `getValue` returns the sentinel `none`, and for every
in-bounds (col, row) it returns the active-buffer cell value (on a grid
whose buffer has the allocated `colCount * rowCount` cells). -/
theorem c8_getValue_bounds (p : SnowPile) (col row : Int)
    (hlen : p.currentBuffer.length = p.colCount * p.rowCount) :
    (getValue p col row = none ↔
      ¬ (0 ≤ col ∧ col < (p.colCount : Int) ∧ 0 ≤ row ∧ row < (p.rowCount : Int))) ∧
    (∀ _ : 0 ≤ col ∧ col < (p.colCount : Int) ∧ 0 ≤ row ∧ row < (p.rowCount : Int),
      getValue p col row =
        some (p.currentBuffer.getD (row.toNat * p.colCount + col.toNat) 0)) := by
  unfold getValue
  by_cases hb : col < 0 ∨ (p.colCount : Int) ≤ col ∨ row < 0 ∨ (p.rowCount : Int) ≤ row
  · rw [if_pos hb]
    refine ⟨⟨fun _ => by omega, fun _ => rfl⟩, fun hin => by omega⟩
  · rw [if_neg hb]
    push_neg at hb
    obtain ⟨h1, h2, h3, h4⟩ := hb
    lift col to Nat using h1 with c
    lift row to Nat using h3 with r
    have hcc : c < p.colCount := by exact_mod_cast h2
    have hrc : r < p.rowCount := by exact_mod_cast h4
    have hidx : ((r : Int) * (p.colCount : Int) + (c : Int)).toNat =
        r * p.colCount + c := by
      rw [← Nat.cast_mul, ← Nat.cast_add, Int.toNat_natCast]
    have hlt : r * p.colCount + c < p.currentBuffer.length := by
      rw [hlen, Nat.mul_comm p.colCount p.rowCount]
      have hs : (r + 1) * p.colCount ≤ p.rowCount * p.colCount :=
        Nat.mul_le_mul_right _ (by omega)
      have he : (r + 1) * p.colCount = r * p.colCount + p.colCount := by ring
      omega
    constructor
    · constructor
      · intro hnone
        rw [hidx, get?_eq_some_getD _ _ hlt] at hnone
        exact absurd hnone (by simp)
      · intro hcontra
        exact absurd ⟨by exact_mod_cast Int.ofNat_nonneg c, by exact_mod_cast hcc,
          by exact_mod_cast Int.ofNat_nonneg r, by exact_mod_cast hrc⟩ hcontra
    · intro _
      rw [hidx, get?_eq_some_getD _ _ hlt, Int.toNat_natCast, Int.toNat_natCast]

/-- Witness for C8: on the 10×10 grid, the in-bounds read (3, 2) returns the
active-buffer value. -/
theorem c8_witness :
    getValue grid10 3 2 =
      some (grid10.currentBuffer.getD ((2 : Int).toNat * grid10.colCount + (3 : Int).toNat) 0) :=
  (c8_getValue_bounds grid10 3 2 (by decide)).2
    ⟨by decide, by decide, by decide, by decide⟩

/-- When the searched cell is empty, the upward search of `add` stops right
there: snow is written at that cell and the column count is bumped. -/
theorem addLoop_place (cc col : Nat) (b counts : List Nat) (r : Nat)
    (h : b.getD (r * cc + col) 0 = 0) :
    addLoop cc col b counts r =
      (b.set (r * cc + col) 1, counts.set col (u16inc (counts.getD col 0))) := by
  cases r with
  | zero => simp only [addLoop, if_pos h]
  | succ r => simp only [addLoop, if_pos h]

/-- Claim C10: with `collectAtBottom = false`, the bottom-row guard of `add`
fires only when `baseRow` equals `rowCount - 1` exactly: for every `baseRow`
strictly greater than `rowCount - 1`, the call clamps `baseRow` to the last
row and — when that cell is empty — places snow in the bottom row and
increments `columnCounts[col]`, despite bottom accumulation being
disabled. -/
theorem c10_add_beyond_bottom (cfg : Config) (p : SnowPile) (col baseRow : Nat)
    (hcfg : cfg.collectAtBottom = false)
    (hrc : 1 ≤ p.rowCount)
    (hbr : p.rowCount - 1 < baseRow)
    (hempty : p.currentBuffer.getD ((p.rowCount - 1) * p.colCount + col) 0 = 0) :
    (add cfg p col baseRow).currentBuffer =
      p.currentBuffer.set ((p.rowCount - 1) * p.colCount + col) 1 ∧
    (add cfg p col baseRow).columnCounts =
      p.columnCounts.set col (u16inc (p.columnCounts.getD col 0)) := by
  obtain ⟨cw, cc, rc, cur, nxt, cnts⟩ := p
  dsimp only at hrc hbr hempty ⊢
  cases rc with
  | zero => omega
  | succ rm =>
    have hrm' : rm + 1 - 1 = rm := rfl
    rw [hrm'] at hbr hempty ⊢
    unfold add
    dsimp only
    rw [if_neg (by rintro ⟨-, h⟩; omega), min_eq_right (by omega : rm ≤ baseRow)]
    rw [addLoop_place cc col cur cnts rm hempty]
    exact ⟨rfl, rfl⟩

/-- Witness for C10: on the 10×10 grid, `add(3, 42)` places snow in the
bottom row and bumps the count of column 3 even though `CONFIG` disables
bottom accumulation. -/
theorem c10_witness :
    (add CONFIG grid10 3 42).currentBuffer =
      grid10.currentBuffer.set ((grid10.rowCount - 1) * grid10.colCount + 3) 1 ∧
    (add CONFIG grid10 3 42).columnCounts =
      grid10.columnCounts.set 3 (u16inc (grid10.columnCounts.getD 3 0)) :=
  c10_add_beyond_bottom CONFIG grid10 3 42 (by decide) (by decide) (by decide)
    (by decide)

/-!
Claim C6: the bottom row is a drain when `collectAtBottom` is false.
-/

/-- Writing 0 somewhere makes that position read 0 (in range or out). -/
theorem getD_set_zero (l : List Nat) (i : Nat) : (l.set i 0).getD i 0 = 0 := by
  rw [getD_set_self]
  split <;> rfl

/-- After the drain loop has visited a column, the bottom cell of that
column no longer reads as snow (later iterations only ever write 0). -/
theorem clearBottom_fold_ne1 (bs : Nat) (l : List Nat) (bc : List Nat × List Nat)
    (col : Nat) (hmem : col ∈ l) :
    (l.foldl (clearBottomStep bs) bc).1.getD (bs + col) 0 ≠ 1 := by
  induction l generalizing bc with
  | nil => cases hmem
  | cons a t ih =>
    rw [List.foldl_cons]
    rcases List.mem_cons.1 hmem with rfl | hmt
    · refine foldl_inv (fun (bc' : List Nat × List Nat) => bc'.1.getD (bs + col) 0 ≠ 1) t _ _ ?_ ?_
      · intro bc' c _ h
        unfold clearBottomStep
        split
        · show (bc'.1.set (bs + c) 0).getD (bs + col) 0 ≠ 1
          rcases getD_set_cases bc'.1 (bs + c) (bs + col) 0 with h1 | h1 <;>
            rw [h1]
          · exact h
          · omega
        · exact h
      · unfold clearBottomStep
        split
        · show (bc.1.set (bs + col) 0).getD (bs + col) 0 ≠ 1
          rw [getD_set_zero]
          omega
        · assumption
    · exact ih (clearBottomStep bs bc a) hmt

/-- The drain loop body does not change the counts' length. -/
theorem clearBottomStep_counts_length (bs : Nat) (bc : List Nat × List Nat)
    (col : Nat) : ((clearBottomStep bs bc col).2).length = bc.2.length := by
  unfold clearBottomStep
  split <;> simp [List.length_set]

/-- The drain loop decrements the count of a visited column exactly when the
bottom cell of that column held snow when the loop reached it. -/
theorem clearBottom_fold_counts (bs : Nat) (l : List Nat) (bc : List Nat × List Nat)
    (col : Nat) (hmem : col ∈ l) (hnd : l.Nodup) (hlen : col < bc.2.length) :
    (l.foldl (clearBottomStep bs) bc).2.getD col 0 =
      if bc.1.getD (bs + col) 0 = 1 then u16dec (bc.2.getD col 0)
      else bc.2.getD col 0 := by
  induction l generalizing bc with
  | nil => cases hmem
  | cons a t ih =>
    rw [List.foldl_cons]
    have hnd' := List.nodup_cons.1 hnd
    rcases List.mem_cons.1 hmem with rfl | hmt
    · have hstep : (clearBottomStep bs bc col).2.getD col 0 =
          if bc.1.getD (bs + col) 0 = 1 then u16dec (bc.2.getD col 0)
          else bc.2.getD col 0 := by
        unfold clearBottomStep
        split
        · simp only
          rw [getD_set_self]
          rw [if_pos hlen]
        · rfl
      rw [← hstep]
      refine foldl_inv
        (fun (bc' : List Nat × List Nat) =>
          bc'.2.getD col 0 = (clearBottomStep bs bc col).2.getD col 0)
        t _ _ ?_ rfl
      intro bc' c hc h
      have hne : c ≠ col := fun hh => hnd'.1 (hh ▸ hc)
      unfold clearBottomStep
      split
      · simp only
        rw [getD_set_ne _ _ _ _ hne]
        exact h
      · exact h
    · have ha : a ≠ col := fun h => hnd'.1 (h ▸ hmt)
      rw [ih (clearBottomStep bs bc a) hmt hnd'.2
        (by rw [clearBottomStep_counts_length]; exact hlen)]
      unfold clearBottomStep
      split
      · simp only
        rw [getD_set_ne _ _ _ _ (fun h => ha (by omega)),
          getD_set_ne _ _ _ _ ha]
      · rfl

/-- `processCell` preserves the length of the counts array (every update is
a `set`). -/
theorem processCell_counts_length (o : Oracle) (cc rc : Nat) (cur : List Nat)
    (row : Nat) (acc : PassAcc) (col : Nat) :
    (processCell o cc rc cur row acc col).counts.length = acc.counts.length := by
  unfold processCell
  dsimp only
  repeat' split
  all_goals simp [List.length_set]

/-- `processRow` preserves the length of the counts array. -/
theorem processRow_counts_length (o : Oracle) (cc rc : Nat) (cur : List Nat)
    (acc : PassAcc) (row : Nat) :
    (processRow o cc rc cur acc row).counts.length = acc.counts.length := by
  unfold processRow
  split
  · rfl
  · exact foldl_inv (fun (a : PassAcc) => a.counts.length = acc.counts.length)
      _ _ _ (fun a c _ h => by
        dsimp only
        rw [processCell_counts_length]
        exact h) rfl

/-- The whole physics pass preserves the length of the counts array. -/
theorem mainPass_counts_length (o : Oracle) (cc rc : Nat) (cur counts : List Nat) :
    (mainPass o cc rc cur counts).counts.length = counts.length := by
  unfold mainPass
  exact foldl_inv (fun (a : PassAcc) => a.counts.length = counts.length) _ _ _
    (fun a r _ h => by
      dsimp only
      rw [processRow_counts_length]
      exact h) rfl

/-- Claim C6: when `collectAtBottom` is false, after every `step()` the last
row of the new active buffer contains no snow cells (the bottom row is a
drain), and the count of a column is decremented by the drain exactly when
the bottom cell of that column held snow after the pass and its cascades. -/
theorem c6_bottom_drain (cfg : Config) (o : Oracle) (p : SnowPile) (col : Nat)
    (hcfg : cfg.collectAtBottom = false) (hrc : 1 ≤ p.rowCount)
    (hcol : col < p.colCount) (hclen : p.columnCounts.length = p.colCount) :
    (update cfg o p).currentBuffer.getD ((p.rowCount - 1) * p.colCount + col) 0 ≠ 1 ∧
    (update cfg o p).columnCounts.getD col 0 =
      (if (applyCascades p.colCount
            (mainPass o p.colCount p.rowCount p.currentBuffer p.columnCounts).next
            (mainPass o p.colCount p.rowCount p.currentBuffer p.columnCounts).cascades).getD
            ((p.rowCount - 1) * p.colCount + col) 0 = 1
       then u16dec
         ((mainPass o p.colCount p.rowCount p.currentBuffer p.columnCounts).counts.getD col 0)
       else
         (mainPass o p.colCount p.rowCount p.currentBuffer p.columnCounts).counts.getD col 0) := by
  obtain ⟨cw, cc, rc, cur, nxt, cnts⟩ := p
  dsimp only at hrc hcol hclen ⊢
  cases rc with
  | zero => omega
  | succ rm =>
    unfold update
    dsimp only
    rw [if_neg (by simp [hcfg])]
    simp only [Nat.add_sub_cancel]
    constructor
    · exact clearBottom_fold_ne1 (rm * cc) (List.range cc) _ col
        (List.mem_range.2 hcol)
    · rw [clearBottom]
      rw [clearBottom_fold_counts (rm * cc) (List.range cc) _ col
        (List.mem_range.2 hcol) (List.nodup_range cc)
        (by dsimp only; rw [mainPass_counts_length]; omega)]

/-- Witness for C6: on the small 2×2 grid, after one deterministic step the
bottom row is empty and the count of column 0 reflects the drained cell. -/
theorem c6_witness :
    (update CONFIG noRandom smallGrid).currentBuffer.getD
      ((smallGrid.rowCount - 1) * smallGrid.colCount + 0) 0 ≠ 1 ∧
    (update CONFIG noRandom smallGrid).columnCounts.getD 0 0 =
      (if (applyCascades smallGrid.colCount
            (mainPass noRandom smallGrid.colCount smallGrid.rowCount
              smallGrid.currentBuffer smallGrid.columnCounts).next
            (mainPass noRandom smallGrid.colCount smallGrid.rowCount
              smallGrid.currentBuffer smallGrid.columnCounts).cascades).getD
            ((smallGrid.rowCount - 1) * smallGrid.colCount + 0) 0 = 1
       then u16dec
         ((mainPass noRandom smallGrid.colCount smallGrid.rowCount
            smallGrid.currentBuffer smallGrid.columnCounts).counts.getD 0 0)
       else
         (mainPass noRandom smallGrid.colCount smallGrid.rowCount
            smallGrid.currentBuffer smallGrid.columnCounts).counts.getD 0 0) :=
  c6_bottom_drain CONFIG noRandom smallGrid 0 (by decide) (by decide) (by decide)
    (by decide)

/-!
Claim C7: `clearAllSnow` is idempotent, clears exactly the snow, keeps
blockers, and zeroes every column count.
-/

/-- A fold whose body fixes the accumulator returns it unchanged. -/
theorem foldl_fixed {α β : Type _} (f : α → β → α) (l : List β) (a : α)
    (h : ∀ x ∈ l, f a x = a) : l.foldl f a = a := by
  induction l with
  | nil => rfl
  | cons x t ih =>
    rw [List.foldl_cons, h x (List.mem_cons_self x t)]
    exact ih (fun y hy => h y (List.mem_cons_of_mem x hy))

/-- Distinct (col, row) pairs with in-range columns give distinct flat
indices. -/
theorem cellIdx_inj (cc r1 c1 r2 c2 : Nat) (h1 : c1 < cc) (h2 : c2 < cc)
    (heq : r1 * cc + c1 = r2 * cc + c2) : r1 = r2 ∧ c1 = c2 := by
  have e1 : (r1 * cc + c1) % cc = c1 := by
    rw [Nat.add_comm, Nat.add_mul_mod_self_right]
    exact Nat.mod_eq_of_lt h1
  have e2 : (r2 * cc + c2) % cc = c2 := by
    rw [Nat.add_comm, Nat.add_mul_mod_self_right]
    exact Nat.mod_eq_of_lt h2
  have hc : c1 = c2 := by rw [← e1, ← e2, heq]
  subst hc
  refine ⟨?_, rfl⟩
  have hr : r1 * cc = r2 * cc := by omega
  exact Nat.eq_of_mul_eq_mul_right (by omega) hr

/-- Two cells of the same column at distinct rows have distinct flat
indices (for a positive column count). -/
theorem rowIdx_inj (cc col r1 r2 : Nat) (hcc : 0 < cc)
    (heq : r1 * cc + col = r2 * cc + col) : r1 = r2 :=
  Nat.eq_of_mul_eq_mul_right hcc (Nat.add_right_cancel heq)

/-- The snow-clearing cell step only writes 0, so a cell that does not read
as snow keeps not reading as snow. -/
theorem clearCellStep_ne1 (cc col : Nat) (b : List Nat) (row j : Nat)
    (h : b.getD j 0 ≠ 1) : (clearCellStep cc col b row).getD j 0 ≠ 1 := by
  unfold clearCellStep
  split
  · rcases getD_set_cases b (row * cc + col) j 0 with h1 | h1 <;> rw [h1]
    · exact h
    · omega
  · exact h

/-- The snow-clearing cell step only touches its own cell. -/
theorem clearCellStep_getD_ne (cc col : Nat) (b : List Nat) (row j : Nat)
    (h : j ≠ row * cc + col) :
    (clearCellStep cc col b row).getD j 0 = b.getD j 0 := by
  unfold clearCellStep
  split
  · exact getD_set_ne b _ j 0 (fun hh => h hh.symm)
  · rfl

/-- A whole column pass preserves non-snow reads everywhere. -/
theorem clearColumnSnow_ne1_pres (cc rc col : Nat) (b : List Nat) (j : Nat)
    (h : b.getD j 0 ≠ 1) : (clearColumnSnow cc rc col b).getD j 0 ≠ 1 :=
  foldl_inv (fun (b' : List Nat) => b'.getD j 0 ≠ 1) _ _ _
    (fun b' row _ hb => clearCellStep_ne1 cc col b' row j hb) h

/-- A column pass leaves any position outside its column untouched. -/
theorem clearColumnSnow_getD_untouched (cc rc col : Nat) (b : List Nat) (j : Nat)
    (h : ∀ row, row < rc → j ≠ row * cc + col) :
    (clearColumnSnow cc rc col b).getD j 0 = b.getD j 0 :=
  foldl_inv (fun (b' : List Nat) => b'.getD j 0 = b.getD j 0) _ _ _
    (fun b' row hrow hb => by
      show (clearCellStep cc col b' row).getD j 0 = b.getD j 0
      rw [clearCellStep_getD_ne cc col b' row j (h row (List.mem_range.1 hrow))]
      exact hb) rfl

/-- After the column pass has visited a row, that cell does not read as
snow. -/
theorem clearColumnSnow_fold_ne1 (cc col : Nat) (l : List Nat) (b : List Nat)
    (row : Nat) (hmem : row ∈ l) :
    (l.foldl (clearCellStep cc col) b).getD (row * cc + col) 0 ≠ 1 := by
  induction l generalizing b with
  | nil => cases hmem
  | cons a t ih =>
    rw [List.foldl_cons]
    rcases List.mem_cons.1 hmem with rfl | hmt
    · refine foldl_inv (fun (b' : List Nat) => b'.getD (row * cc + col) 0 ≠ 1)
        t _ _ (fun b' r _ hb => clearCellStep_ne1 cc col b' r _ hb) ?_
      unfold clearCellStep
      split
      · rw [getD_set_zero]
        omega
      · assumption
    · exact ih (clearCellStep cc col b a) hmt

/-- Pointwise effect of the column pass on its own cells: snow becomes
empty, anything else is unchanged. -/
theorem clearColumnSnow_fold_char (cc col : Nat) (hcc : 0 < cc) (l : List Nat)
    (b : List Nat) (row : Nat) (hmem : row ∈ l) (hnd : l.Nodup) :
    (l.foldl (clearCellStep cc col) b).getD (row * cc + col) 0 =
      if b.getD (row * cc + col) 0 = 1 then 0 else b.getD (row * cc + col) 0 := by
  induction l generalizing b with
  | nil => cases hmem
  | cons a t ih =>
    rw [List.foldl_cons]
    have hnd' := List.nodup_cons.1 hnd
    rcases List.mem_cons.1 hmem with rfl | hmt
    · have hrest : ∀ (b' : List Nat),
          (t.foldl (clearCellStep cc col) b').getD (row * cc + col) 0 =
            b'.getD (row * cc + col) 0 := by
        intro b'
        refine foldl_inv
          (fun (b'' : List Nat) =>
            b''.getD (row * cc + col) 0 = b'.getD (row * cc + col) 0)
          t _ _ ?_ rfl
        intro b'' r hr hb
        show (clearCellStep cc col b'' r).getD (row * cc + col) 0 = _
        rw [clearCellStep_getD_ne cc col b'' r _ ?_]
        · exact hb
        · intro heq
          exact hnd'.1 ((rowIdx_inj cc col row r hcc heq).symm ▸ hr)
      rw [hrest]
      unfold clearCellStep
      split
      · rw [getD_set_zero]
      · rfl
    · have ha : (clearCellStep cc col b a).getD (row * cc + col) 0 =
          b.getD (row * cc + col) 0 := by
        refine clearCellStep_getD_ne cc col b a _ ?_
        intro heq
        exact hnd'.1 ((rowIdx_inj cc col row a hcc heq) ▸ hmt)
      rw [ih (clearCellStep cc col b a) hmt hnd'.2, ha]

/-- After the outer loop has visited a column, none of that column's cells
reads as snow. -/
theorem clearAll_fold_ne1 (cc rc : Nat) (l : List Nat) (bc : List Nat × List Nat)
    (col row : Nat) (hcol : col ∈ l) (hrow : row < rc) :
    ((l.foldl (clearAllStep cc rc) bc).1.getD (row * cc + col) 0) ≠ 1 := by
  induction l generalizing bc with
  | nil => cases hcol
  | cons a t ih =>
    rw [List.foldl_cons]
    rcases List.mem_cons.1 hcol with rfl | hmt
    · refine foldl_inv
        (fun (bc' : List Nat × List Nat) => bc'.1.getD (row * cc + col) 0 ≠ 1)
        t _ _ ?_ ?_
      · intro bc' c _ hb
        exact clearColumnSnow_ne1_pres cc rc c bc'.1 _ hb
      · exact clearColumnSnow_fold_ne1 cc col (List.range rc) bc.1 row
          (List.mem_range.2 hrow)
    · exact ih (clearAllStep cc rc bc a) hmt

/-- After the outer loop has visited a column, its cached count reads 0. -/
theorem clearAll_fold_counts (cc rc : Nat) (l : List Nat)
    (bc : List Nat × List Nat) (col : Nat) (hcol : col ∈ l) (hnd : l.Nodup) :
    (l.foldl (clearAllStep cc rc) bc).2.getD col 0 = 0 := by
  induction l generalizing bc with
  | nil => cases hcol
  | cons a t ih =>
    rw [List.foldl_cons]
    have hnd' := List.nodup_cons.1 hnd
    rcases List.mem_cons.1 hcol with rfl | hmt
    · refine foldl_inv
        (fun (bc' : List Nat × List Nat) => bc'.2.getD col 0 = 0) t _ _ ?_ ?_
      · intro bc' c hc hb
        show (bc'.2.set c 0).getD col 0 = 0
        rcases eq_or_ne c col with rfl | hne
        · exact getD_set_zero _ _
        · rw [getD_set_ne _ _ _ _ hne]
          exact hb
      · exact getD_set_zero _ _
    · exact ih (clearAllStep cc rc bc a) hmt hnd'.2

/-- Pointwise effect of `clearAllSnow`'s double loop on an in-range cell:
snow becomes empty, anything else (empty or blocker) is unchanged. -/
theorem clearAll_fold_char (cc rc : Nat) (l : List Nat) (bc : List Nat × List Nat)
    (col row : Nat) (hcol : col ∈ l) (hnd : l.Nodup) (hccol : col < cc)
    (hlcc : ∀ c ∈ l, c < cc) (hrow : row < rc) :
    (l.foldl (clearAllStep cc rc) bc).1.getD (row * cc + col) 0 =
      if bc.1.getD (row * cc + col) 0 = 1 then 0
      else bc.1.getD (row * cc + col) 0 := by
  induction l generalizing bc with
  | nil => cases hcol
  | cons a t ih =>
    rw [List.foldl_cons]
    have hnd' := List.nodup_cons.1 hnd
    rcases List.mem_cons.1 hcol with rfl | hmt
    · have hrest : ∀ (bc' : List Nat × List Nat),
          (t.foldl (clearAllStep cc rc) bc').1.getD (row * cc + col) 0 =
            bc'.1.getD (row * cc + col) 0 := by
        intro bc'
        refine foldl_inv
          (fun (bc'' : List Nat × List Nat) =>
            bc''.1.getD (row * cc + col) 0 = bc'.1.getD (row * cc + col) 0)
          t _ _ ?_ rfl
        intro bc'' c hc hb
        show (clearColumnSnow cc rc c bc''.1).getD (row * cc + col) 0 = _
        rw [clearColumnSnow_getD_untouched cc rc c bc''.1 _ ?_]
        · exact hb
        · intro r _ heq
          exact hnd'.1
            ((cellIdx_inj cc row col r c hccol (hlcc c (List.mem_cons_of_mem _ hc)) heq).2 ▸ hc)
      rw [hrest]
      show (clearColumnSnow cc rc col bc.1).getD (row * cc + col) 0 = _
      exact clearColumnSnow_fold_char cc col (by omega) (List.range rc) bc.1 row
        (List.mem_range.2 hrow) (List.nodup_range rc)
    · have ha : (clearAllStep cc rc bc a).1.getD (row * cc + col) 0 =
          bc.1.getD (row * cc + col) 0 := by
        show (clearColumnSnow cc rc a bc.1).getD (row * cc + col) 0 = _
        refine clearColumnSnow_getD_untouched cc rc a bc.1 _ ?_
        intro r _ heq
        have hac : col = a :=
          (cellIdx_inj cc row col r a hccol (hlcc a (List.mem_cons_self a t)) heq).2
        exact absurd hmt (hac ▸ hnd'.1)
      rw [ih (clearAllStep cc rc bc a) hmt hnd'.2
        (fun c hc => hlcc c (List.mem_cons_of_mem a hc)), ha]

/-- Claim C7: `clearAllSnow` is idempotent — calling it twice yields the
same state as calling it once — and one call turns every snow cell to
empty, leaves every non-snow cell (in particular every blocker) unchanged,
and zeroes every column's cached count. -/
theorem c7_clearAllSnow_idem (p : SnowPile) :
    clearAllSnow (clearAllSnow p) = clearAllSnow p ∧
    (∀ col, col < p.colCount → ∀ row, row < p.rowCount →
      (clearAllSnow p).currentBuffer.getD (row * p.colCount + col) 0 =
        if p.currentBuffer.getD (row * p.colCount + col) 0 = 1 then 0
        else p.currentBuffer.getD (row * p.colCount + col) 0) ∧
    (∀ col, col < p.colCount → (clearAllSnow p).columnCounts.getD col 0 = 0) := by
  refine ⟨?_, ?_, ?_⟩
  · have hfix : (List.range p.colCount).foldl
        (clearAllStep p.colCount p.rowCount)
        ((clearAllSnow p).currentBuffer, (clearAllSnow p).columnCounts) =
        ((clearAllSnow p).currentBuffer, (clearAllSnow p).columnCounts) := by
      refine foldl_fixed _ _ _ ?_
      intro col hcol
      unfold clearAllStep
      refine Prod.ext ?_ ?_
      · show clearColumnSnow p.colCount p.rowCount col
            (clearAllSnow p).currentBuffer = (clearAllSnow p).currentBuffer
        refine foldl_fixed _ _ _ ?_
        intro row hrow
        unfold clearCellStep
        rw [if_neg]
        exact clearAll_fold_ne1 p.colCount p.rowCount (List.range p.colCount)
          (p.currentBuffer, p.columnCounts) col row hcol (List.mem_range.1 hrow)
      · show (clearAllSnow p).columnCounts.set col 0 = (clearAllSnow p).columnCounts
        refine set_zero_of_getD_zero _ _ ?_
        exact clearAll_fold_counts p.colCount p.rowCount (List.range p.colCount)
          (p.currentBuffer, p.columnCounts) col hcol (List.nodup_range _)
    show
      (let bc := (List.range (clearAllSnow p).colCount).foldl
        (clearAllStep (clearAllSnow p).colCount (clearAllSnow p).rowCount)
        ((clearAllSnow p).currentBuffer, (clearAllSnow p).columnCounts)
       { clearAllSnow p with currentBuffer := bc.1, columnCounts := bc.2 }) =
        clearAllSnow p
    rw [show (clearAllSnow p).colCount = p.colCount from rfl,
      show (clearAllSnow p).rowCount = p.rowCount from rfl]
    rw [hfix]
  · intro col hcol row hrow
    exact clearAll_fold_char p.colCount p.rowCount (List.range p.colCount)
      (p.currentBuffer, p.columnCounts) col row (List.mem_range.2 hcol)
      (List.nodup_range _) hcol (fun c hc => List.mem_range.1 hc) hrow
  · intro col hcol
    exact clearAll_fold_counts p.colCount p.rowCount (List.range p.colCount)
      (p.currentBuffer, p.columnCounts) col (List.mem_range.2 hcol)
      (List.nodup_range _)

/-- Witness for C7 on the small snowy grid: idempotence, the snow cell at
(1, 0) is cleared, and column 0's count becomes 0. -/
theorem c7_witness :
    clearAllSnow (clearAllSnow smallGrid) = clearAllSnow smallGrid ∧
    (clearAllSnow smallGrid).currentBuffer.getD (0 * smallGrid.colCount + 1) 0 =
      (if smallGrid.currentBuffer.getD (0 * smallGrid.colCount + 1) 0 = 1 then 0
       else smallGrid.currentBuffer.getD (0 * smallGrid.colCount + 1) 0) ∧
    (clearAllSnow smallGrid).columnCounts.getD 0 0 = 0 :=
  ⟨(c7_clearAllSnow_idem smallGrid).1,
   (c7_clearAllSnow_idem smallGrid).2.1 1 (by decide) 0 (by decide),
   (c7_clearAllSnow_idem smallGrid).2.2 0 (by decide)⟩

/-!
Claim C3: blocker cells are never overwritten.

The proof tracks, through the physics pass, the bundle of facts: blocker
positions of the frozen `current` buffer stay 2 in the write buffer, the
write buffer has 2 only where `current` has 2 (every write is a 0 or a 1),
and every recorded cascade gap was a snow cell of `current`.  The cascade
stage then never starts from a blocker gap and its scan stops at blockers.
-/

/-- Two writes of non-blocker values at non-blocker positions keep the
blocker positions of `cur` intact in the write buffer, in both
directions. -/
theorem next2_trans (cur nxt : List Nat) (i1 v1 i2 v2 : Nat)
    (h1 : ∀ j, cur.getD j 0 = 2 → nxt.getD j 0 = 2)
    (h2 : ∀ j, nxt.getD j 0 = 2 → cur.getD j 0 = 2)
    (hv1 : v1 ≠ 2) (hv2 : v2 ≠ 2)
    (hc1 : cur.getD i1 0 ≠ 2) (hc2 : cur.getD i2 0 ≠ 2) :
    (∀ j, cur.getD j 0 = 2 → ((nxt.set i1 v1).set i2 v2).getD j 0 = 2) ∧
    (∀ j, ((nxt.set i1 v1).set i2 v2).getD j 0 = 2 → cur.getD j 0 = 2) := by
  constructor
  · intro j hj
    rw [getD_set_ne _ _ _ _ (fun he => hc2 (by rw [he]; exact hj)),
      getD_set_ne _ _ _ _ (fun he => hc1 (by rw [he]; exact hj))]
    exact h1 j hj
  · intro j hj
    rcases getD_set_cases (nxt.set i1 v1) i2 j v2 with hc | hc
    · rw [hc] at hj
      rcases getD_set_cases nxt i1 j v1 with hd | hd
      · rw [hd] at hj
        exact h2 j hj
      · rw [hd] at hj
        exact absurd hj hv1
    · rw [hc] at hj
      exact absurd hj hv2

/-- Single-write version of `next2_trans` (for the decay write). -/
theorem next1_trans (cur nxt : List Nat) (i1 v1 : Nat)
    (h1 : ∀ j, cur.getD j 0 = 2 → nxt.getD j 0 = 2)
    (h2 : ∀ j, nxt.getD j 0 = 2 → cur.getD j 0 = 2)
    (hv1 : v1 ≠ 2) (hc1 : cur.getD i1 0 ≠ 2) :
    (∀ j, cur.getD j 0 = 2 → (nxt.set i1 v1).getD j 0 = 2) ∧
    (∀ j, (nxt.set i1 v1).getD j 0 = 2 → cur.getD j 0 = 2) := by
  constructor
  · intro j hj
    rw [getD_set_ne _ _ _ _ (fun he => hc1 (by rw [he]; exact hj))]
    exact h1 j hj
  · intro j hj
    rcases getD_set_cases nxt i1 j v1 with hc | hc
    · rw [hc] at hj
      exact h2 j hj
    · rw [hc] at hj
      exact absurd hj hv1

/-- The cell step of the physics pass preserves the blocker bundle: blocker
positions of `cur` stay 2 in the write buffer, no new 2 appears, and every
recorded gap was a snow cell of `cur`. -/
theorem processCell_blockerP (o : Oracle) (cc rc : Nat) (cur : List Nat)
    (row : Nat) (acc : PassAcc) (col : Nat)
    (h1 : ∀ j, cur.getD j 0 = 2 → acc.next.getD j 0 = 2)
    (h2 : ∀ j, acc.next.getD j 0 = 2 → cur.getD j 0 = 2)
    (h3 : ∀ pr ∈ acc.cascades, cur.getD (pr.2 * cc + pr.1) 0 = 1) :
    (∀ j, cur.getD j 0 = 2 →
      (processCell o cc rc cur row acc col).next.getD j 0 = 2) ∧
    (∀ j, (processCell o cc rc cur row acc col).next.getD j 0 = 2 →
      cur.getD j 0 = 2) ∧
    (∀ pr ∈ (processCell o cc rc cur row acc col).cascades,
      cur.getD (pr.2 * cc + pr.1) 0 = 1) := by
  unfold processCell
  dsimp only
  split
  · exact ⟨h1, h2, h3⟩
  case isFalse hcell' =>
  have hcell : cur.getD (row * cc + col) 0 = 1 := by omega
  split
  case isTrue hbelow =>
    have hpair := next2_trans cur acc.next ((row + 1) * cc + col) 1
      (row * cc + col) 0 h1 h2 (by omega) (by omega)
      (by rw [hbelow]; omega) (by rw [hcell]; omega)
    exact ⟨hpair.1, hpair.2, h3⟩
  case isFalse hnb =>
  split
  · exact ⟨h1, h2, h3⟩
  case isFalse hnb2 =>
  split
  case isTrue hspread =>
    split
    case h_1 heq =>
      exact ⟨h1, h2, h3⟩
    case h_2 isLeft heq =>
      have hcasc : ∀ pr ∈ acc.cascades ++ [(col, row)],
          cur.getD (pr.2 * cc + pr.1) 0 = 1 := by
        intro pr hpr
        rcases List.mem_append.1 hpr with hold | hnew
        · exact h3 pr hold
        · rcases List.mem_singleton.1 hnew with rfl
          exact hcell
      split at heq
      case isTrue hboth =>
        simp only [Bool.and_eq_true, decide_eq_true_eq, beq_iff_eq] at hboth
        obtain ⟨⟨hc0, hleft⟩, hcrange, hright⟩ := hboth
        cases heq
        cases hdl : o.dirLeft row col with
        | true =>
          rw [if_pos rfl]
          have hidx : row * cc + (col - 1) = row * cc + col - 1 := by omega
          have hpair := next2_trans cur acc.next (row * cc + (col - 1)) 1
            (row * cc + col) 0 h1 h2 (by omega) (by omega)
            (by rw [hidx, hleft]; omega) (by rw [hcell]; omega)
          exact ⟨hpair.1, hpair.2, hcasc⟩
        | false =>
          rw [if_neg Bool.false_ne_true]
          have hidx : row * cc + (col + 1) = row * cc + col + 1 := by omega
          have hpair := next2_trans cur acc.next (row * cc + (col + 1)) 1
            (row * cc + col) 0 h1 h2 (by omega) (by omega)
            (by rw [hidx, hright]; omega) (by rw [hcell]; omega)
          exact ⟨hpair.1, hpair.2, hcasc⟩
      case isFalse =>
      split at heq
      case isTrue hl =>
        simp only [Bool.and_eq_true, decide_eq_true_eq, beq_iff_eq] at hl
        obtain ⟨hc0, hleft⟩ := hl
        cases heq
        rw [if_pos rfl]
        have hidx : row * cc + (col - 1) = row * cc + col - 1 := by omega
        have hpair := next2_trans cur acc.next (row * cc + (col - 1)) 1
          (row * cc + col) 0 h1 h2 (by omega) (by omega)
          (by rw [hidx, hleft]; omega) (by rw [hcell]; omega)
        exact ⟨hpair.1, hpair.2, hcasc⟩
      case isFalse =>
      split at heq
      case isTrue hr =>
        simp only [Bool.and_eq_true, decide_eq_true_eq, beq_iff_eq] at hr
        obtain ⟨hcrange, hright⟩ := hr
        cases heq
        rw [if_neg Bool.false_ne_true]
        have hidx : row * cc + (col + 1) = row * cc + col + 1 := by omega
        have hpair := next2_trans cur acc.next (row * cc + (col + 1)) 1
          (row * cc + col) 0 h1 h2 (by omega) (by omega)
          (by rw [hidx, hright]; omega) (by rw [hcell]; omega)
        exact ⟨hpair.1, hpair.2, hcasc⟩
      case isFalse =>
        cases heq
  case isFalse hnospread =>
  split
  case isTrue hdecay =>
    have hpair := next1_trans cur acc.next (row * cc + col) 0 h1 h2 (by omega)
      (by rw [hcell]; omega)
    refine ⟨hpair.1, hpair.2, ?_⟩
    intro pr hpr
    rcases List.mem_append.1 hpr with hold | hnew
    · exact h3 pr hold
    · rcases List.mem_singleton.1 hnew with rfl
      exact hcell
  case isFalse =>
    exact ⟨h1, h2, h3⟩

/-- The row loop of the physics pass preserves the blocker bundle. -/
theorem processRow_blockerP (o : Oracle) (cc rc : Nat) (cur : List Nat)
    (acc : PassAcc) (row : Nat)
    (h1 : ∀ j, cur.getD j 0 = 2 → acc.next.getD j 0 = 2)
    (h2 : ∀ j, acc.next.getD j 0 = 2 → cur.getD j 0 = 2)
    (h3 : ∀ pr ∈ acc.cascades, cur.getD (pr.2 * cc + pr.1) 0 = 1) :
    (∀ j, cur.getD j 0 = 2 →
      (processRow o cc rc cur acc row).next.getD j 0 = 2) ∧
    (∀ j, (processRow o cc rc cur acc row).next.getD j 0 = 2 →
      cur.getD j 0 = 2) ∧
    (∀ pr ∈ (processRow o cc rc cur acc row).cascades,
      cur.getD (pr.2 * cc + pr.1) 0 = 1) := by
  unfold processRow
  split
  · exact ⟨h1, h2, h3⟩
  · refine foldl_inv
      (fun (a : PassAcc) =>
        (∀ j, cur.getD j 0 = 2 → a.next.getD j 0 = 2) ∧
        (∀ j, a.next.getD j 0 = 2 → cur.getD j 0 = 2) ∧
        (∀ pr ∈ a.cascades, cur.getD (pr.2 * cc + pr.1) 0 = 1))
      _ _ _ ?_ ⟨h1, h2, h3⟩
    intro a c _ hP
    exact processCell_blockerP o cc rc cur row a c hP.1 hP.2.1 hP.2.2

/-- The whole physics pass satisfies the blocker bundle: starting from the
copied buffer, blockers stay, no new blocker value appears, and all
recorded gaps were snow cells of the frozen buffer. -/
theorem mainPass_blockerP (o : Oracle) (cc rc : Nat) (cur counts : List Nat) :
    (∀ j, cur.getD j 0 = 2 → (mainPass o cc rc cur counts).next.getD j 0 = 2) ∧
    (∀ j, (mainPass o cc rc cur counts).next.getD j 0 = 2 → cur.getD j 0 = 2) ∧
    (∀ pr ∈ (mainPass o cc rc cur counts).cascades,
      cur.getD (pr.2 * cc + pr.1) 0 = 1) := by
  unfold mainPass
  refine foldl_inv
    (fun (a : PassAcc) =>
      (∀ j, cur.getD j 0 = 2 → a.next.getD j 0 = 2) ∧
      (∀ j, a.next.getD j 0 = 2 → cur.getD j 0 = 2) ∧
      (∀ pr ∈ a.cascades, cur.getD (pr.2 * cc + pr.1) 0 = 1))
    _ _ _ ?_ ⟨fun j hj => hj, fun j hj => hj, by simp⟩
  intro a row _ hP
  exact processRow_blockerP o cc rc cur a row hP.1 hP.2.1 hP.2.2

/-- The cascade scan writes only 0 and 1, so it creates no new blocker
value. -/
theorem cascadeAux_no_new2 (cc col : Nat) :
    ∀ (n : Nat) (b : List Nat) (w j : Nat),
      (cascadeAux cc col b w n).getD j 0 = 2 → b.getD j 0 = 2 := by
  intro n
  induction n with
  | zero => exact fun b w j h => h
  | succ n ih =>
    intro b w j h
    unfold cascadeAux at h
    dsimp only at h
    split at h
    · have hb := ih _ _ _ h
      rcases getD_set_cases (b.set (w * cc + col) 1) (n * cc + col) j 0 with hc | hc
      · rw [hc] at hb
        rcases getD_set_cases b (w * cc + col) j 1 with hd | hd
        · rw [hd] at hb
          exact hb
        · rw [hd] at hb
          omega
      · rw [hc] at hb
        omega
    · split at h
      · exact h
      · exact ih _ _ _ h

/-- The cascade scan never writes over a blocker: as long as no cell
between the scan front and the write position is a blocker (true at entry,
because the gap cell was just emptied), every blocker cell is intact
afterwards. -/
theorem cascadeAux_pres2 (cc col : Nat) :
    ∀ (n : Nat) (b : List Nat) (w : Nat), n ≤ w →
      (∀ s, n ≤ s → s ≤ w → b.getD (s * cc + col) 0 ≠ 2) →
      ∀ j, b.getD j 0 = 2 → (cascadeAux cc col b w n).getD j 0 = 2 := by
  intro n
  induction n with
  | zero => exact fun b w _ _ j hj => hj
  | succ n ih =>
    intro b w hnw hJ j hj
    unfold cascadeAux
    dsimp only
    split
    case isTrue hv =>
      have hw2 : b.getD (w * cc + col) 0 ≠ 2 := hJ w hnw (Nat.le_refl w)
      have hj' : ((b.set (w * cc + col) 1).set (n * cc + col) 0).getD j 0 = 2 := by
        rw [getD_set_ne _ _ _ _ (fun he => by rw [← he] at hj; omega),
          getD_set_ne _ _ _ _ (fun he => by rw [← he] at hj; exact hw2 hj)]
        exact hj
      refine ih _ (w - 1) (by omega) ?_ j hj'
      intro s hs1 hs2
      rcases Nat.eq_or_lt_of_le hs1 with rfl | hlt
      · rw [getD_set_zero]
        omega
      · have hb2 := hJ s (by omega) (by omega)
        intro hcontra
        rcases getD_set_cases (b.set (w * cc + col) 1) (n * cc + col)
          (s * cc + col) 0 with hc | hc
        · rw [hc] at hcontra
          rcases getD_set_cases b (w * cc + col) (s * cc + col) 1 with hd | hd
          · rw [hd] at hcontra
            exact hb2 hcontra
          · rw [hd] at hcontra
            omega
        · rw [hc] at hcontra
          omega
    case isFalse hv1 =>
    split
    case isTrue => exact hj
    case isFalse hv2 =>
      refine ih b w (by omega) ?_ j hj
      intro s hs1 hs2
      rcases Nat.eq_or_lt_of_le hs1 with rfl | hlt
      · exact hv2
      · exact hJ s (by omega) hs2

/-- Running all recorded cascades preserves blockers in both directions,
provided every recorded gap was a snow cell of the frozen buffer. -/
theorem applyCascades_blocker (cc : Nat) (cur : List Nat) :
    ∀ (records : List (Nat × Nat)) (b : List Nat),
      (∀ pr ∈ records, cur.getD (pr.2 * cc + pr.1) 0 = 1) →
      (∀ j, cur.getD j 0 = 2 → b.getD j 0 = 2) →
      (∀ j, b.getD j 0 = 2 → cur.getD j 0 = 2) →
      (∀ j, cur.getD j 0 = 2 → (applyCascades cc b records).getD j 0 = 2) ∧
      (∀ j, (applyCascades cc b records).getD j 0 = 2 → cur.getD j 0 = 2) := by
  intro records
  induction records with
  | nil => exact fun b _ h21 h12 => ⟨h21, h12⟩
  | cons pr t ih =>
    intro b hrec h21 h12
    have hstep : applyCascades cc b (pr :: t) =
        applyCascades cc (cascadeColumn cc b pr.1 pr.2) t := rfl
    rw [hstep]
    have hgap : b.getD (pr.2 * cc + pr.1) 0 ≠ 2 := fun hcontra => by
      have hcur := h12 _ hcontra
      have hone := hrec pr (List.mem_cons_self pr t)
      omega
    have h21' : ∀ j, cur.getD j 0 = 2 →
        (cascadeColumn cc b pr.1 pr.2).getD j 0 = 2 := by
      intro j hj
      refine cascadeAux_pres2 cc pr.1 pr.2 b pr.2 (Nat.le_refl _) ?_ j (h21 j hj)
      intro s hs1 hs2
      have : s = pr.2 := Nat.le_antisymm hs2 hs1
      rw [this]
      exact hgap
    have h12' : ∀ j, (cascadeColumn cc b pr.1 pr.2).getD j 0 = 2 →
        cur.getD j 0 = 2 := fun j hj =>
      h12 j (cascadeAux_no_new2 cc pr.1 pr.2 b pr.2 j hj)
    exact ih (cascadeColumn cc b pr.1 pr.2)
      (fun q hq => hrec q (List.mem_cons_of_mem pr hq)) h21' h12'

/-- The bottom drain only clears snow cells, so blockers are intact. -/
theorem clearBottom_pres2 (bs : Nat) (l : List Nat) (bc : List Nat × List Nat)
    (j : Nat) (h : bc.1.getD j 0 = 2) :
    (l.foldl (clearBottomStep bs) bc).1.getD j 0 = 2 := by
  refine foldl_inv (fun (bc' : List Nat × List Nat) => bc'.1.getD j 0 = 2)
    l _ bc ?_ h
  intro bc' c _ hb
  unfold clearBottomStep
  split
  case isTrue hv =>
    show (bc'.1.set (bs + c) 0).getD j 0 = 2
    rw [getD_set_ne _ _ _ _ (fun he => by rw [← he] at hb; omega)]
    exact hb
  case isFalse => exact hb

/-- A `step()` never overwrites a blocker cell of the active buffer. -/
theorem update_blocker (cfg : Config) (o : Oracle) (p : SnowPile) (j : Nat)
    (h : p.currentBuffer.getD j 0 = 2) :
    (update cfg o p).currentBuffer.getD j 0 = 2 := by
  obtain ⟨cw, cc, rc, cur, nxt, cnts⟩ := p
  dsimp only at h ⊢
  unfold update
  dsimp only
  have hP := mainPass_blockerP o cc rc cur cnts
  have hcas := applyCascades_blocker cc cur (mainPass o cc rc cur cnts).cascades
    (mainPass o cc rc cur cnts).next hP.2.2 hP.1 hP.2.1
  split
  · exact hcas.1 j h
  · split
    · exact hcas.1 j h
    · exact clearBottom_pres2 _ _ _ j (hcas.1 j h)

/-- The upward search of `add` writes only into an empty cell, so blockers
are intact. -/
theorem addLoop_blocker (cc col : Nat) (b counts : List Nat) (j : Nat)
    (h : b.getD j 0 = 2) :
    ∀ r, (addLoop cc col b counts r).1.getD j 0 = 2 := by
  intro r
  induction r with
  | zero =>
    unfold addLoop
    split
    case isTrue hc =>
      show (b.set (0 * cc + col) 1).getD j 0 = 2
      rw [getD_set_ne _ _ _ _ (fun he => by rw [← he] at h; omega)]
      exact h
    case isFalse => exact h
  | succ r ih =>
    unfold addLoop
    split
    case isTrue hc =>
      show (b.set ((r + 1) * cc + col) 1).getD j 0 = 2
      rw [getD_set_ne _ _ _ _ (fun he => by rw [← he] at h; omega)]
      exact h
    case isFalse => exact ih

/-- `add` never overwrites a blocker cell. -/
theorem add_blocker (cfg : Config) (p : SnowPile) (col baseRow j : Nat)
    (h : p.currentBuffer.getD j 0 = 2) :
    (add cfg p col baseRow).currentBuffer.getD j 0 = 2 := by
  obtain ⟨cw, cc, rc, cur, nxt, cnts⟩ := p
  dsimp only at h ⊢
  cases rc with
  | zero => exact h
  | succ rm =>
    unfold add
    dsimp only
    split
    · exact h
    · exact addLoop_blocker cc col cur cnts j h _

/-- `clearRow` never overwrites a blocker cell. -/
theorem clearRow_blocker (p : SnowPile) (rowIndex j : Nat)
    (h : p.currentBuffer.getD j 0 = 2) :
    (clearRow p rowIndex).currentBuffer.getD j 0 = 2 := by
  unfold clearRow
  dsimp only
  refine foldl_inv (fun (bc : List Nat × List Nat) => bc.1.getD j 0 = 2)
    _ _ _ ?_ h
  intro bc c _ hb
  unfold clearRowStep
  split
  case isTrue hv =>
    show (bc.1.set (rowIndex * p.colCount + c) 0).getD j 0 = 2
    rw [getD_set_ne _ _ _ _ (fun he => by rw [← he] at hb; omega)]
    exact hb
  case isFalse => exact hb

/-- One snow-clearing cell step keeps blockers intact. -/
theorem clearCellStep_pres2 (cc col : Nat) (b : List Nat) (row j : Nat)
    (h : b.getD j 0 = 2) : (clearCellStep cc col b row).getD j 0 = 2 := by
  unfold clearCellStep
  split
  case isTrue hv =>
    rw [getD_set_ne _ _ _ _ (fun he => by rw [← he] at h; omega)]
    exact h
  case isFalse => exact h

/-- `clearAllSnow` never overwrites a blocker cell. -/
theorem clearAllSnow_blocker (p : SnowPile) (j : Nat)
    (h : p.currentBuffer.getD j 0 = 2) :
    (clearAllSnow p).currentBuffer.getD j 0 = 2 := by
  unfold clearAllSnow
  dsimp only
  refine foldl_inv (fun (bc : List Nat × List Nat) => bc.1.getD j 0 = 2)
    _ _ _ ?_ h
  intro bc c _ hb
  show (clearColumnSnow p.colCount p.rowCount c bc.1).getD j 0 = 2
  exact foldl_inv (fun (b' : List Nat) => b'.getD j 0 = 2) _ _ _
    (fun b' row _ hb' => clearCellStep_pres2 _ _ b' row j hb') hb

/-- Claim C3: a cell holding `Blocker` in the active buffer still holds
`Blocker` after any sequence of `step` (with any random outcomes), `add`,
`clearRow` and `clearAllSnow` calls: neither the physics pass, nor the
gravity cascade, nor the drain, nor any mutation call ever overwrites a
blocker cell. -/
theorem c3_blocker_invariant (cfg : Config) (p : SnowPile) (ops : List Op)
    (j : Nat) (h : p.currentBuffer.getD j 0 = 2) :
    (applyOps cfg p ops).currentBuffer.getD j 0 = 2 := by
  induction ops generalizing p with
  | nil => exact h
  | cons op t ih =>
    have hstep : (applyOp cfg p op).currentBuffer.getD j 0 = 2 := by
      cases op with
      | add col baseRow => exact add_blocker cfg p col baseRow j h
      | step o => exact update_blocker cfg o p j h
      | clearRow r => exact clearRow_blocker p r j h
      | clearAll => exact clearAllSnow_blocker p j h
    exact ih (applyOp cfg p op) hstep

/-- Witness for C3: the blocker at flat index 4 of `blockerGrid` (marked at
construction) survives a step, an add, a row clear, a full clear, and a
step with spreading enabled. -/
theorem c3_witness :
    blockerGrid.currentBuffer.getD 4 0 = 2 ∧
    (applyOps CONFIG blockerGrid
      [Op.step noRandom, Op.add 0 1, Op.clearRow 1, Op.clearAll,
       Op.step spreadOracle]).currentBuffer.getD 4 0 = 2 :=
  ⟨by decide, c3_blocker_invariant CONFIG blockerGrid _ 4 (by decide)⟩

end Snowfall
